import Mathlib

/-!
# Sbol2Terms_Module: the SBOL2 `Module` vocabulary terms

A shallow embedding of
`ccore2/src/org/sbolstandard/core2/Sbol2Terms_Module.cpp`: the four static
`QName*` fields of `org::sbolstandard::core2::Sbol2Terms_Module`, the
function-local statics of `clinit()` and `class_()`, the `npc` null check, and
the public static functions that read them.

Pointers are `Option` values (`none` is the null pointer), a thrown exception
is an `Except.error`, and the static storage of the class is threaded through
every function explicitly: C++ does not roll statics back when an exception
propagates, so a failing call still returns the state it reached.
-/

namespace Sbol2Terms_Module

/-! ## Collaborators outside the translated file -/

/-- Modelled from the spec: `uk::ac::ncl::intbio::core::datatree::NamespaceBinding`
is only included by the source; the spec's vocabulary table is made of
"namespace URI + local-name entries", so a binding carries its namespace URI. -/
structure NamespaceBinding where
  namespaceURI : String
deriving DecidableEq, Repr

/-- Modelled from the spec: `javax::xml::namespace_::QName` is only named by the
source; the spec's Term is the "immutable pair (namespace URI, local name)". -/
structure QName where
  namespaceURI : String
  localPart : String
deriving DecidableEq, Repr

/-- Modelled from the spec: `NamespaceBinding::withLocalPart` is called by the
source and defined elsewhere; it pairs the binding's namespace URI with the
given local name. -/
def NamespaceBinding.withLocalPart (ns : NamespaceBinding) (localPart : String) : QName :=
  { namespaceURI := ns.namespaceURI, localPart := localPart }

/-- The exceptions the translated file can throw. -/
inductive Throwable where
  | NullPointerException
deriving DecidableEq, Repr

/-! ## Static storage -/

/-- The static storage of `Sbol2Terms_Module`. -/
structure Statics where
  /-- The function-local `static bool in_cl_init` of `clinit()`. -/
  in_cl_init : Bool
  /-- Whether the function-local `static clinit_ clinit_instance` has been
  constructed (its constructor ran to completion). -/
  clinit_instance : Bool
  /-- The static field `QName* Module__`. -/
  Module__ : Option QName
  /-- The static field `QName* hasMapsTo_`. -/
  hasMapsTo_ : Option QName
  /-- The static field `QName* hasMapping_`. -/
  hasMapping_ : Option QName
  /-- The static field `QName* hasDefinition_`. -/
  hasDefinition_ : Option QName
  /-- Ghost counter, not a program variable: how many times the body of the
  constructor `clinit_::clinit_()` has been entered. -/
  clinit__entered : Nat
deriving DecidableEq, Repr

/-- Static storage at program start: statics are zero-initialised. -/
def Statics.fresh : Statics :=
  { in_cl_init := false, clinit_instance := false,
    Module__ := none, hasMapsTo_ := none, hasMapping_ := none, hasDefinition_ := none,
    clinit__entered := 0 }

/-- The result of running a piece of the program: the storage it left behind,
and either the value returned or the exception that is propagating. -/
structure Outcome (α : Type) where
  statics : Statics
  result : Except Throwable α

/-- A computation over the static storage. `none` means the evaluation ran out
of fuel (see `clinit`). -/
def M (α : Type) : Type := Statics → Option (Outcome α)

/-- Return a value, storage untouched. -/
def M.pure {α : Type} (a : α) : M α := fun s => some ⟨s, .ok a⟩

/-- Sequencing: a propagating exception skips the rest, keeping the storage. -/
def M.bind {α β : Type} (x : M α) (f : α → M β) : M β := fun s =>
  match x s with
  | none => none
  | some ⟨s1, .error e⟩ => some ⟨s1, .error e⟩
  | some ⟨s1, .ok a⟩ => f a s1

instance : Monad M where
  pure := M.pure
  bind := M.bind

/-- Read the static storage. -/
def M.get : M Statics := fun s => some ⟨s, .ok s⟩

/-- Update the static storage. -/
def M.modify (f : Statics → Statics) : M Unit := fun s => some ⟨f s, .ok ()⟩

/-- The file-local template `npc`: `if(!t) throw new NullPointerException(); return t;`. -/
def npc {T : Type} (t : Option T) : Except Throwable T :=
  match t with
  | none => .error .NullPointerException
  | some x => .ok x

/-- Lift a pure, possibly throwing, expression. -/
def M.ofExcept {α : Type} (r : Except Throwable α) : M α := fun s => some ⟨s, r⟩

/-! ## Calls into the class -/

/-- The four static accessors. -/
inductive Accessor where
  | Module_
  | hasMapsTo
  | hasMapping
  | hasDefinition
deriving DecidableEq, Repr

/-- A call of a public static function of the class. -/
inductive Call where
  | clinit
  | get (a : Accessor)
deriving DecidableEq, Repr

/-- What lies outside the translated file and is reached from `clinit()`. -/
structure Env where
  /-- The pointer `Sbol2Terms::sbol2()` returns, the same at each evaluation:
  nothing in the translated file writes the statics of `Sbol2Terms`. -/
  sbol2 : Option NamespaceBinding
  /-- The calls back into `Sbol2Terms_Module` that the `k`-th evaluation of
  `Sbol2Terms::sbol2()` inside the initializer makes before it returns
  (`fun _ => []` when it makes none). -/
  reentrant : Nat → List Call

/-- The field an accessor returns. -/
def Accessor.field (a : Accessor) (s : Statics) : Option QName :=
  match a with
  | .Module_ => s.Module__
  | .hasMapsTo => s.hasMapsTo_
  | .hasMapping => s.hasMapping_
  | .hasDefinition => s.hasDefinition_

/-- Run a list of calls in order with the given implementation of a call; an
exception stops the list and propagates. -/
def runCalls (call : Call → M (Option QName)) : List Call → M Unit
  | [] => M.pure ()
  | c :: cs => M.bind (call c) (fun _ => runCalls call cs)

/-- The call `Sbol2Terms::sbol2()` as evaluated for the `k`-th time inside the
initializer: the environment's calls back into this class, then its pointer. -/
def sbol2 (env : Env) (call : Call → M (Option QName)) (k : Nat) : M (Option NamespaceBinding) := do
  runCalls call (env.reentrant k)
  pure env.sbol2

/-- The constructor `clinit_::clinit_()` (lines 69-75). -/
def clinit_ (env : Env) (call : Call → M (Option QName)) : M Unit := do
  M.modify (fun s => { s with clinit__entered := s.clinit__entered + 1 })
  -- in_cl_init = true;
  M.modify (fun s => { s with in_cl_init := true })
  -- Module__ = npc(Sbol2Terms::sbol2())->withLocalPart(u"Module"_j);
  let ns ← M.ofExcept (npc (← sbol2 env call 0))
  M.modify (fun s => { s with Module__ := some (ns.withLocalPart "Module") })
  -- hasMapsTo_ = npc(Sbol2Terms::sbol2())->withLocalPart(u"mapsTo"_j);
  let ns ← M.ofExcept (npc (← sbol2 env call 1))
  M.modify (fun s => { s with hasMapsTo_ := some (ns.withLocalPart "mapsTo") })
  -- hasMapping_ = npc(Sbol2Terms::sbol2())->withLocalPart(u"mapping"_j);
  let ns ← M.ofExcept (npc (← sbol2 env call 2))
  M.modify (fun s => { s with hasMapping_ := some (ns.withLocalPart "mapping") })
  -- hasDefinition_ = npc(Sbol2Terms::sbol2())->withLocalPart(u"definition"_j);
  let ns ← M.ofExcept (npc (← sbol2 env call 3))
  M.modify (fun s => { s with hasDefinition_ := some (ns.withLocalPart "definition") })

/-- The function `Sbol2Terms_Module::clinit()` (lines 64-81). `super::clinit()` is
`java::lang::Object::clinit()`, which has no access to the statics of this
class. The function-local static `clinit_instance` is constructed when control
first passes over its declaration, and its construction is attempted again on
a later pass if the constructor threw. The fuel bounds the depth of calls back into the class from inside the
initializer; `none` is returned when it is exhausted. -/
def clinit (env : Env) : Nat → M Unit
  | 0 => fun _ => none
  | fuel + 1 => do
    let s ← M.get
    -- if(!in_cl_init) { static clinit_ clinit_instance; }
    if !s.in_cl_init then
      if !s.clinit_instance then
        clinit_ env (fun c => do
          clinit env fuel
          match c with
          | .clinit => pure none
          | .get a => pure (a.field (← M.get)))
        M.modify (fun s => { s with clinit_instance := true })

/-- An accessor (lines 28-54): `clinit(); return <field>;`. The source returns a
reference to the static field; the model returns the pointer stored in it. -/
def accessor (env : Env) (fuel : Nat) (a : Accessor) : M (Option QName) := do
  clinit env fuel
  pure (a.field (← M.get))

/-- Perform one call; `clinit()` returns nothing. -/
def exec (env : Env) (fuel : Nat) : Call → M (Option QName)
  | .clinit => do
    clinit env fuel
    pure none
  | .get a => accessor env fuel a

/-- A client that makes the given calls one after the other from outside the
class, catching whatever a call throws before making the next one; the result
is the storage left behind. -/
def afterCalls (env : Env) (fuel : Nat) : List Call → Statics → Option Statics
  | [], s => some s
  | c :: cs, s =>
    match exec env fuel c s with
    | none => none
    | some o => afterCalls env fuel cs o.statics

/-- The storage is either untouched by initialisation, or its flag is set and
the initializer was entered once. -/
def Entered_once (s : Statics) : Prop :=
  s.clinit__entered ≤ 1 ∧ (s.in_cl_init = false → s.clinit__entered = 0)

/-- An environment for concrete runs: the SBOL2 namespace, and an
`Sbol2Terms::sbol2()` that calls back into the class each time it is evaluated. -/
def Env.calling_back : Env :=
  { sbol2 := some { namespaceURI := "http://sbols.org/v2#" },
    reentrant := fun _ => [.clinit, .get .Module_, .get .hasDefinition] }

/-- An environment for concrete runs in which `Sbol2Terms::sbol2()` is null. -/
def Env.without_namespace : Env :=
  { sbol2 := none, reentrant := fun _ => [.clinit, .get .hasMapsTo] }

/-! ## The runtime class object (lines 56-62 and 83-86) -/

/-- The UTF-16 code units of a string, as a `char16_t` literal stores them. -/
def utf16 (s : String) : List Nat :=
  s.toList.flatMap (fun ch =>
    if ch.toNat < 65536 then [ch.toNat]
    else [55296 + (ch.toNat - 65536) / 1024, 56320 + (ch.toNat - 65536) % 1024])

/-- The static storage of `class_()`: the function-local `static Class* c`,
with `K` the type of class objects and `R` the state of the runtime behind the
extern `::class_`. -/
structure ClassStatics (K R : Type) where
  /-- Whether `c` has been initialised. -/
  c_initialised : Bool
  /-- The pointer `c`. -/
  c : Option K
  /-- The state of the runtime that hands out class objects. -/
  runtime : R

/-- The function `Sbol2Terms_Module::class_()`. The extern
`::class_(const char16_t *c, int n)` is the parameter `ext`; it receives the
literal and the length written in the source. -/
def class_ {K R : Type} (ext : List Nat → Int → R → Option K × R) (st : ClassStatics K R) :
    Option K × ClassStatics K R :=
  if st.c_initialised then (st.c, st)
  else
    let r := ext (utf16 "org.sbolstandard.core2.Sbol2Terms.Module") 40 st.runtime
    (r.1, { c_initialised := true, c := r.1, runtime := r.2 })

/-- The function `Sbol2Terms_Module::getClass0()`: `return class_();`. -/
def getClass0 {K R : Type} (ext : List Nat → Int → R → Option K × R) (st : ClassStatics K R) :
    Option K × ClassStatics K R :=
  class_ ext st

end Sbol2Terms_Module

/-!
# The entity graph of the specification

The document operations of the specification (`createEntity`, `removeEntity`)
have no counterpart in the translated sources; they are modelled here from
sections 3 and 4.2 of the specification. References are stored by identifier
and play no part in either operation.
-/

namespace EntityGraph

/-- Modelled from the spec: the Identifier of section 3, whose code is missing;
"two identifiers are equal iff their normalized URI strings are equal", so an
identifier is represented by its normalized URI string. -/
structure Identifier where
  uri : String
deriving DecidableEq, Repr

/-- Modelled from the spec: the entity variants of section 3, whose code is
missing (TopLevel: ModuleDefinition, ComponentDefinition, Sequence; child:
Module, MapsTo, Component, SequenceAnnotation). -/
inductive Kind where
  | ModuleDefinition
  | ComponentDefinition
  | Sequence
  | Module
  | MapsTo
  | Component
  | SequenceAnnotation
deriving DecidableEq, Repr

/-- Modelled from the spec: the Entity of section 3, whose code is missing: an
Identifier, typed property values, typed references to other Identifiers (by
identity, not by pointer), and the owning parent "recorded at `createEntity`
time" (`none` for an entity nothing owns). -/
structure Entity where
  id : Identifier
  kind : Kind
  owner : Option Identifier
  properties : List (Sbol2Terms_Module.QName × String)
  references : List (Sbol2Terms_Module.QName × Identifier)
deriving DecidableEq, Repr

/-- Modelled from the spec: the Document of section 3, whose code is missing:
the mapping from Identifier to Entity, kept in insertion order. -/
abbrev Document := List Entity

/-- Modelled from the spec: the two errors of section 7 that the entity graph
operations raise; their code is missing. -/
inductive Error where
  | DuplicateIdentifierError
  | NotFoundError
deriving DecidableEq, Repr

/-- The identifiers of a document, in insertion order. -/
def ids (d : Document) : List Identifier := d.map (fun e => e.id)

/-- Lookup by identifier. -/
def lookup (d : Document) (id : Identifier) : Option Entity :=
  d.find? (fun e => decide (e.id = id))

/-- Modelled from the spec: `createEntity(kind, identifier)` of section 4.2, whose
code is missing: "fails with `DuplicateIdentifierError` if the identifier
already exists in the Document"; otherwise the new entity is appended, with the
owning parent given at this call. The handle returned is the identifier. -/
def createEntity (d : Document) (kind : Kind) (id : Identifier)
    (owner : Option Identifier) : Except Error Document :=
  if id ∈ ids d then .error .DuplicateIdentifierError
  else .ok (d ++ [{ id := id, kind := kind, owner := owner, properties := [], references := [] }])

/-- Whether following the recorded owners from `e` reaches `target` within
`fuel` steps: `e` is owned by `target`, or by an entity that is. -/
def ownedBy (d : Document) (target : Identifier) : Nat → Entity → Bool
  | 0, _ => false
  | fuel + 1, e =>
    match e.owner with
    | none => false
    | some p =>
      if p = target then true
      else
        match lookup d p with
        | none => false
        | some parent => ownedBy d target fuel parent

/-- Modelled from the spec: `removeEntity(identifier)` of section 4.2, whose code
is missing: "cascades to exclusively-owned children ...; fails with
`NotFoundError` if absent". What remains keeps its insertion order. -/
def removeEntity (d : Document) (id : Identifier) : Except Error Document :=
  if id ∈ ids d then
    .ok (d.filter (fun e => !decide (e.id = id) && !ownedBy d id d.length e))
  else .error .NotFoundError

/-- The ownership chain of the specification: `OwnedBy d target k e` when `k`
owner links lead from `e` up to `target`. -/
inductive OwnedBy (d : Document) (target : Identifier) : Nat → Entity → Prop where
  | direct (e : Entity) (h : e.owner = some target) : OwnedBy d target 1 e
  | step (e parent : Entity) (p : Identifier) (k : Nat) (h : e.owner = some p)
      (hp : lookup d p = some parent) (hk : OwnedBy d target k parent) :
      OwnedBy d target (k + 1) e

/-- The entities met on an ownership chain: `Chain d target l e` when `l` lists
`e`, its owner, the owner of that, and so on up to an entity whose owner is
`target`. -/
inductive Chain (d : Document) (target : Identifier) : List Entity → Entity → Prop where
  | direct (e : Entity) (h : e.owner = some target) : Chain d target [e] e
  | step (e parent : Entity) (p : Identifier) (l : List Entity) (h : e.owner = some p)
      (hp : lookup d p = some parent) (hl : Chain d target l parent) :
      Chain d target (e :: l) e

/-- A ComponentDefinition that nothing owns. -/
def Entity.cd1 : Entity :=
  { id := ⟨"cd1"⟩, kind := .ComponentDefinition, owner := none, properties := [],
    references := [] }

/-- A design with one ModuleDefinition owning two Modules, one of which owns a
MapsTo, and a ComponentDefinition that the Modules only refer to through
`definition`. -/
def Document.design : Document :=
  [ Entity.cd1,
    { id := ⟨"md1"⟩, kind := .ModuleDefinition, owner := none,
      properties := [], references := [] },
    { id := ⟨"md1/m1"⟩, kind := .Module, owner := some ⟨"md1"⟩, properties := [],
      references := [(⟨"http://sbols.org/v2#", "definition"⟩, ⟨"cd1"⟩)] },
    { id := ⟨"md1/m2"⟩, kind := .Module, owner := some ⟨"md1"⟩, properties := [],
      references := [(⟨"http://sbols.org/v2#", "definition"⟩, ⟨"cd1"⟩)] },
    { id := ⟨"md1/m1/mt1"⟩, kind := .MapsTo, owner := some ⟨"md1/m1"⟩, properties := [],
      references := [] } ]

end EntityGraph

/-! # Properties of `Sbol2Terms_Module` -/

namespace Sbol2Terms_Module

/-- The callback `clinit` hands to its initializer is `exec` one level down. -/
theorem clinit_callback (env : Env) (fuel : Nat) :
    (fun c => (do
          clinit env fuel
          match c with
          | .clinit => pure none
          | .get a => pure (a.field (← M.get)) : M (Option QName))) = exec env fuel := by
  funext c
  cases c <;> rfl

/-- One unfolding of `clinit`: the initializer runs exactly when the flag is
clear and the local static is not constructed yet. -/
theorem clinit_succ (env : Env) (fuel : Nat) (s : Statics) :
    clinit env (fuel + 1) s =
      if s.in_cl_init = false ∧ s.clinit_instance = false then
        M.bind (clinit_ env (exec env fuel))
          (fun _ => M.modify (fun s => { s with clinit_instance := true })) s
      else some ⟨s, .ok ()⟩ := by
  rw [← clinit_callback]
  cases h1 : s.in_cl_init <;> cases h2 : s.clinit_instance <;>
    simp [clinit, bind, M.bind, M.get, h1, h2, pure, M.pure]

/-- With the flag set, `clinit()` returns at once and touches nothing. -/
theorem clinit_closed (env : Env) (fuel : Nat) (s : Statics) (h : s.in_cl_init = true) :
    clinit env (fuel + 1) s = some ⟨s, .ok ()⟩ := by
  simp [clinit_succ, h]

/-- With the flag set, every call returns the current field and touches nothing. -/
theorem exec_closed (env : Env) (fuel : Nat) (c : Call) (s : Statics)
    (h : s.in_cl_init = true) :
    exec env (fuel + 1) c s =
      some ⟨s, .ok (match c with | .clinit => none | .get a => a.field s)⟩ := by
  cases c <;> simp [exec, accessor, bind, M.bind, clinit_closed, h, pure, M.pure, M.get]

/-- With the flag set, a whole sequence of calls touches nothing. -/
theorem runCalls_closed (env : Env) (fuel : Nat) (cs : List Call) (s : Statics)
    (h : s.in_cl_init = true) :
    runCalls (exec env (fuel + 1)) cs s = some ⟨s, .ok ()⟩ := by
  induction cs with
  | nil => rfl
  | cons c cs ih => simp [runCalls, M.bind, exec_closed, h, ih]

/-- Inside the initializer `Sbol2Terms::sbol2()` just yields its pointer:
whatever it calls back finds the flag set. -/
theorem sbol2_closed (env : Env) (fuel k : Nat) (s : Statics) (h : s.in_cl_init = true) :
    sbol2 env (exec env (fuel + 1)) k s = some ⟨s, .ok env.sbol2⟩ := by
  simp [sbol2, bind, M.bind, runCalls_closed, h, pure, M.pure]

/-- The initializer with a namespace binding: four assignments. -/
theorem clinit__some (env : Env) (fuel : Nat) (s : Statics) (ns : NamespaceBinding)
    (h : env.sbol2 = some ns) :
    clinit_ env (exec env (fuel + 1)) s =
      some ⟨{ s with
              in_cl_init := true
              Module__ := some (ns.withLocalPart "Module")
              hasMapsTo_ := some (ns.withLocalPart "mapsTo")
              hasMapping_ := some (ns.withLocalPart "mapping")
              hasDefinition_ := some (ns.withLocalPart "definition")
              clinit__entered := s.clinit__entered + 1 }, .ok ()⟩ := by
  simp [clinit_, bind, M.bind, M.modify, sbol2_closed, h, npc, M.ofExcept]

/-- The initializer without a namespace binding: the first `npc` throws. -/
theorem clinit__none (env : Env) (fuel : Nat) (s : Statics) (h : env.sbol2 = none) :
    clinit_ env (exec env (fuel + 1)) s =
      some ⟨{ s with
              in_cl_init := true
              clinit__entered := s.clinit__entered + 1 }, .error .NullPointerException⟩ := by
  simp [clinit_, bind, M.bind, M.modify, sbol2_closed, h, npc, M.ofExcept]

/-- The first `clinit()` with a namespace binding. -/
theorem clinit_fresh_some (env : Env) (fuel : Nat) (ns : NamespaceBinding)
    (h : env.sbol2 = some ns) :
    clinit env (fuel + 2) Statics.fresh =
      some ⟨{ in_cl_init := true, clinit_instance := true,
              Module__ := some (ns.withLocalPart "Module"),
              hasMapsTo_ := some (ns.withLocalPart "mapsTo"),
              hasMapping_ := some (ns.withLocalPart "mapping"),
              hasDefinition_ := some (ns.withLocalPart "definition"),
              clinit__entered := 1 }, .ok ()⟩ := by
  simp [clinit_succ, clinit__some env fuel _ ns h, M.bind, M.modify, Statics.fresh]

/-- The first `clinit()` without a namespace binding. -/
theorem clinit_fresh_none (env : Env) (fuel : Nat) (h : env.sbol2 = none) :
    clinit env (fuel + 2) Statics.fresh =
      some ⟨{ in_cl_init := true, clinit_instance := false,
              Module__ := none, hasMapsTo_ := none, hasMapping_ := none,
              hasDefinition_ := none, clinit__entered := 1 },
            .error .NullPointerException⟩ := by
  simp [clinit_succ, clinit__none env fuel _ h, M.bind, Statics.fresh]

/-- Every case of `clinit()` with fuel for one level of calls back: a no-op
when the guard is set, the four assignments when a namespace is bound, and
an exception right after the flag is set when none is. -/
theorem clinit_cases (env : Env) (fuel : Nat) (s : Statics) :
    ((s.in_cl_init = true ∨ s.clinit_instance = true) ∧
        clinit env (fuel + 2) s = some ⟨s, .ok ()⟩) ∨
    (s.in_cl_init = false ∧ s.clinit_instance = false ∧ ∃ ns, env.sbol2 = some ns ∧
        clinit env (fuel + 2) s =
          some ⟨{ in_cl_init := true, clinit_instance := true,
                  Module__ := some (ns.withLocalPart "Module"),
                  hasMapsTo_ := some (ns.withLocalPart "mapsTo"),
                  hasMapping_ := some (ns.withLocalPart "mapping"),
                  hasDefinition_ := some (ns.withLocalPart "definition"),
                  clinit__entered := s.clinit__entered + 1 }, .ok ()⟩) ∨
    (s.in_cl_init = false ∧ s.clinit_instance = false ∧ env.sbol2 = none ∧
        clinit env (fuel + 2) s =
          some ⟨{ s with in_cl_init := true, clinit__entered := s.clinit__entered + 1 },
                .error .NullPointerException⟩) := by
  cases h1 : s.in_cl_init
  · cases h2 : s.clinit_instance
    · cases h3 : env.sbol2 with
      | none =>
        right; right
        simp [clinit_succ, clinit__none env fuel _ h3, M.bind, h1, h2]
      | some ns =>
        right; left
        simp [clinit_succ, clinit__some env fuel _ ns h3, M.bind, M.modify, h1, h2]
    · left
      simp [clinit_succ, h1, h2]
  · left
    simp [clinit_succ, h1]

/-- Two levels of fuel are enough for `clinit()` to return, whatever the
environment calls back. -/
theorem clinit_terminates (env : Env) (fuel : Nat) (s : Statics) :
    ∃ o, clinit env (fuel + 2) s = some o := by
  rcases clinit_cases env fuel s with ⟨_, e⟩ | ⟨_, _, ns, _, e⟩ | ⟨_, _, _, e⟩ <;>
    exact ⟨_, e⟩

/-- A call is `clinit()` followed by reading a field. -/
theorem exec_eq (env : Env) (fuel : Nat) (c : Call) (s : Statics) :
    exec env fuel c s =
      match clinit env fuel s with
      | none => none
      | some ⟨s1, .error e⟩ => some ⟨s1, .error e⟩
      | some ⟨s1, .ok _⟩ => some ⟨s1, .ok (match c with | .clinit => none | .get a => a.field s1)⟩ := by
  cases c <;> simp only [exec, accessor, bind, M.bind, pure, M.pure, M.get] <;>
    rcases clinit env fuel s with _ | ⟨s1, _ | _⟩ <;> rfl

/-- One call keeps `Entered_once` and returns. -/
theorem exec_entered_once (env : Env) (fuel : Nat) (c : Call) (s : Statics)
    (hs : Entered_once s) :
    ∃ o, exec env (fuel + 2) c s = some o ∧ Entered_once o.statics := by
  rw [exec_eq]
  rcases clinit_cases env fuel s with ⟨_, e⟩ | ⟨h1, _, ns, _, e⟩ | ⟨h1, _, _, e⟩
  · rw [e]; exact ⟨_, rfl, hs⟩
  · rw [e]; refine ⟨_, rfl, ?_⟩
    have := hs.2 h1
    simp [Entered_once, this]
  · rw [e]; refine ⟨_, rfl, ?_⟩
    have := hs.2 h1
    simp [Entered_once, this]

/-- A client's sequence of calls keeps `Entered_once` and returns. -/
theorem afterCalls_entered_once (env : Env) (fuel : Nat) (cs : List Call) (s : Statics)
    (hs : Entered_once s) :
    ∃ s1, afterCalls env (fuel + 2) cs s = some s1 ∧ Entered_once s1 := by
  induction cs generalizing s with
  | nil => exact ⟨s, rfl, hs⟩
  | cons c cs ih =>
    obtain ⟨o, ho, hinv⟩ := exec_entered_once env fuel c s hs
    obtain ⟨s1, h1, h2⟩ := ih o.statics hinv
    exact ⟨s1, by simp [afterCalls, ho, h1], h2⟩

/-- With the flag set, a client's sequence of calls touches nothing. -/
theorem afterCalls_closed (env : Env) (fuel : Nat) (cs : List Call) (s : Statics)
    (h : s.in_cl_init = true) :
    afterCalls env (fuel + 1) cs s = some s := by
  induction cs with
  | nil => rfl
  | cons c cs ih => simp [afterCalls, exec_closed, h, ih]

/-- With a namespace bound, a client's calls leave the storage fresh (no call
made) or fully initialised. -/
theorem afterCalls_fresh (env : Env) (fuel : Nat) (ns : NamespaceBinding)
    (h : env.sbol2 = some ns) (cs : List Call) :
    afterCalls env (fuel + 2) cs Statics.fresh = some Statics.fresh ∨
    afterCalls env (fuel + 2) cs Statics.fresh =
      some { in_cl_init := true, clinit_instance := true,
             Module__ := some (ns.withLocalPart "Module"),
             hasMapsTo_ := some (ns.withLocalPart "mapsTo"),
             hasMapping_ := some (ns.withLocalPart "mapping"),
             hasDefinition_ := some (ns.withLocalPart "definition"),
             clinit__entered := 1 } := by
  cases cs with
  | nil => left; rfl
  | cons c cs =>
    right
    simp only [afterCalls, exec_eq, clinit_fresh_some env fuel ns h]
    exact afterCalls_closed env (fuel + 1) cs _ rfl

/-! ## Main results on the vocabulary terms -/

/-- C1: after `clinit()` on fresh storage with a non-null namespace binding `ns`,
the four fields hold exactly `ns.withLocalPart` of "Module", "mapsTo", "mapping"
and "definition": each term lies in the namespace of `ns` and carries that
local name. -/
theorem C1_clinit_builds_table (env : Env) (ns : NamespaceBinding) (fuel : Nat)
    (h : env.sbol2 = some ns) :
    clinit env (fuel + 2) Statics.fresh =
      some ⟨{ in_cl_init := true, clinit_instance := true,
              Module__ := some (ns.withLocalPart "Module"),
              hasMapsTo_ := some (ns.withLocalPart "mapsTo"),
              hasMapping_ := some (ns.withLocalPart "mapping"),
              hasDefinition_ := some (ns.withLocalPart "definition"),
              clinit__entered := 1 }, .ok ()⟩ ∧
    ns.withLocalPart "Module" = ⟨ns.namespaceURI, "Module"⟩ ∧
    ns.withLocalPart "mapsTo" = ⟨ns.namespaceURI, "mapsTo"⟩ ∧
    ns.withLocalPart "mapping" = ⟨ns.namespaceURI, "mapping"⟩ ∧
    ns.withLocalPart "definition" = ⟨ns.namespaceURI, "definition"⟩ :=
  ⟨clinit_fresh_some env fuel ns h, rfl, rfl, rfl, rfl⟩

/-- C1 at the SBOL2 namespace, with an `sbol2()` that calls back. -/
theorem C1_clinit_builds_table_witness :
    Env.calling_back.sbol2 = some ⟨"http://sbols.org/v2#"⟩ ∧
    (clinit Env.calling_back 2 Statics.fresh =
      some ⟨{ in_cl_init := true, clinit_instance := true,
              Module__ := some (NamespaceBinding.withLocalPart ⟨"http://sbols.org/v2#"⟩ "Module"),
              hasMapsTo_ := some (NamespaceBinding.withLocalPart ⟨"http://sbols.org/v2#"⟩ "mapsTo"),
              hasMapping_ := some (NamespaceBinding.withLocalPart ⟨"http://sbols.org/v2#"⟩ "mapping"),
              hasDefinition_ :=
                some (NamespaceBinding.withLocalPart ⟨"http://sbols.org/v2#"⟩ "definition"),
              clinit__entered := 1 }, .ok ()⟩ ∧
    NamespaceBinding.withLocalPart ⟨"http://sbols.org/v2#"⟩ "Module"
      = ⟨"http://sbols.org/v2#", "Module"⟩ ∧
    NamespaceBinding.withLocalPart ⟨"http://sbols.org/v2#"⟩ "mapsTo"
      = ⟨"http://sbols.org/v2#", "mapsTo"⟩ ∧
    NamespaceBinding.withLocalPart ⟨"http://sbols.org/v2#"⟩ "mapping"
      = ⟨"http://sbols.org/v2#", "mapping"⟩ ∧
    NamespaceBinding.withLocalPart ⟨"http://sbols.org/v2#"⟩ "definition"
      = ⟨"http://sbols.org/v2#", "definition"⟩) :=
  ⟨rfl, C1_clinit_builds_table Env.calling_back ⟨"http://sbols.org/v2#"⟩ 0 rfl⟩

/-- C2: once a first `clinit()` on fresh storage has succeeded, every further
call of `clinit()` or of an accessor, in any environment, leaves the whole
storage (the four fields, the flag, the entry counter) as it is and an accessor
returns the stored field; `clinit(); clinit()` equals `clinit()` from every
storage, and a `clinit()` after any `clinit()`, failed or not, is a no-op; and
over any sequence of calls from fresh storage the initializer
body is entered at most once. -/
theorem C2_table_read_only (env env' : Env) (fuel fuel' : Nat) (s1 : Statics)
    (h : clinit env (fuel + 2) Statics.fresh = some ⟨s1, .ok ()⟩) :
    (∀ c, exec env' (fuel' + 1) c s1 =
        some ⟨s1, .ok (match c with | .clinit => none | .get a => a.field s1)⟩) ∧
    (∀ cs, afterCalls env' (fuel' + 1) cs s1 = some s1) ∧
    (∀ s, M.bind (clinit env' (fuel' + 2)) (fun _ => clinit env' (fuel' + 2)) s
        = clinit env' (fuel' + 2) s) ∧
    (∀ s o, clinit env' (fuel' + 2) s = some o →
        clinit env' (fuel' + 2) o.statics = some ⟨o.statics, .ok ()⟩) ∧
    (∀ cs, ∃ s, afterCalls env' (fuel' + 2) cs Statics.fresh = some s ∧
        s.clinit__entered ≤ 1) := by
  have hflag : s1.in_cl_init = true := by
    rcases clinit_cases env fuel Statics.fresh with ⟨hc, _⟩ | ⟨_, _, ns, _, e⟩ | ⟨_, _, _, e⟩
    · simp [Statics.fresh] at hc
    · rw [e] at h
      simp only [Option.some.injEq, Outcome.mk.injEq] at h
      rw [← h.1]
    · rw [e] at h
      simp at h
  refine ⟨fun c => exec_closed env' fuel' c s1 hflag,
    fun cs => afterCalls_closed env' fuel' cs s1 hflag, ?_, ?_, ?_⟩
  · intro s
    rcases clinit_cases env' fuel' s with ⟨_, e⟩ | ⟨_, _, ns, _, e⟩ | ⟨_, _, _, e⟩
    · simp [M.bind, e]
    · simp only [M.bind, e]
      exact clinit_closed env' (fuel' + 1) _ rfl
    · simp [M.bind, e]
  · intro s o ho
    rcases clinit_cases env' fuel' s with ⟨_, e⟩ | ⟨_, _, ns, _, e⟩ | ⟨_, _, _, e⟩
    · rw [e] at ho
      rw [← Option.some.inj ho]
      exact e
    · rw [e] at ho
      rw [← Option.some.inj ho]
      exact clinit_closed env' (fuel' + 1) _ rfl
    · rw [e] at ho
      rw [← Option.some.inj ho]
      exact clinit_closed env' (fuel' + 1) _ rfl
  · intro cs
    obtain ⟨s, hs, hinv⟩ := afterCalls_entered_once env' fuel' cs Statics.fresh
      ⟨by simp [Statics.fresh], fun _ => rfl⟩
    exact ⟨s, hs, hinv.1⟩

/-- C2 at the SBOL2 namespace: later calls run in an environment whose
`sbol2()` has become null, and still change nothing. -/
theorem C2_table_read_only_witness :
    clinit Env.calling_back 2 Statics.fresh =
      some ⟨⟨true, true, some ⟨"http://sbols.org/v2#", "Module"⟩,
              some ⟨"http://sbols.org/v2#", "mapsTo"⟩, some ⟨"http://sbols.org/v2#", "mapping"⟩,
              some ⟨"http://sbols.org/v2#", "definition"⟩, 1⟩, .ok ()⟩ ∧
    ((∀ c, exec Env.without_namespace 1 c
          ⟨true, true, some ⟨"http://sbols.org/v2#", "Module"⟩,
            some ⟨"http://sbols.org/v2#", "mapsTo"⟩, some ⟨"http://sbols.org/v2#", "mapping"⟩,
            some ⟨"http://sbols.org/v2#", "definition"⟩, 1⟩ =
        some ⟨⟨true, true, some ⟨"http://sbols.org/v2#", "Module"⟩,
            some ⟨"http://sbols.org/v2#", "mapsTo"⟩, some ⟨"http://sbols.org/v2#", "mapping"⟩,
            some ⟨"http://sbols.org/v2#", "definition"⟩, 1⟩,
          .ok (match c with
            | .clinit => none
            | .get a => a.field ⟨true, true, some ⟨"http://sbols.org/v2#", "Module"⟩,
                some ⟨"http://sbols.org/v2#", "mapsTo"⟩, some ⟨"http://sbols.org/v2#", "mapping"⟩,
                some ⟨"http://sbols.org/v2#", "definition"⟩, 1⟩)⟩) ∧
    (∀ cs, afterCalls Env.without_namespace 1 cs
          ⟨true, true, some ⟨"http://sbols.org/v2#", "Module"⟩,
            some ⟨"http://sbols.org/v2#", "mapsTo"⟩, some ⟨"http://sbols.org/v2#", "mapping"⟩,
            some ⟨"http://sbols.org/v2#", "definition"⟩, 1⟩ =
        some ⟨true, true, some ⟨"http://sbols.org/v2#", "Module"⟩,
            some ⟨"http://sbols.org/v2#", "mapsTo"⟩, some ⟨"http://sbols.org/v2#", "mapping"⟩,
            some ⟨"http://sbols.org/v2#", "definition"⟩, 1⟩) ∧
    (∀ s, M.bind (clinit Env.without_namespace 2) (fun _ => clinit Env.without_namespace 2) s
        = clinit Env.without_namespace 2 s) ∧
    (∀ s o, clinit Env.without_namespace 2 s = some o →
        clinit Env.without_namespace 2 o.statics = some ⟨o.statics, .ok ()⟩) ∧
    (∀ cs, ∃ s, afterCalls Env.without_namespace 2 cs Statics.fresh = some s ∧
        s.clinit__entered ≤ 1)) :=
  ⟨rfl, C2_table_read_only Env.calling_back Env.without_namespace 0 0 _ rfl⟩

/-- C3: with a non-null namespace binding `ns`, after any sequence of earlier
calls from fresh storage (none at all included) each accessor returns, without
raising, the non-null term `ns.withLocalPart` of its own local name, and that
term is what its field then holds. -/
theorem C3_lookup_total_deterministic (env : Env) (ns : NamespaceBinding) (fuel : Nat)
    (h : env.sbol2 = some ns) (cs : List Call) (a : Accessor) :
    ∃ s s1, afterCalls env (fuel + 2) cs Statics.fresh = some s ∧
      accessor env (fuel + 2) a s =
        some ⟨s1, .ok (some (ns.withLocalPart
          (match a with
            | .Module_ => "Module"
            | .hasMapsTo => "mapsTo"
            | .hasMapping => "mapping"
            | .hasDefinition => "definition")))⟩ ∧
      a.field s1 = some (ns.withLocalPart
          (match a with
            | .Module_ => "Module"
            | .hasMapsTo => "mapsTo"
            | .hasMapping => "mapping"
            | .hasDefinition => "definition")) := by
  have hx : ∀ s, accessor env (fuel + 2) a s = exec env (fuel + 2) (.get a) s := fun _ => rfl
  rcases afterCalls_fresh env fuel ns h cs with e | e
  · refine ⟨_, ⟨true, true, some (ns.withLocalPart "Module"), some (ns.withLocalPart "mapsTo"),
      some (ns.withLocalPart "mapping"), some (ns.withLocalPart "definition"), 1⟩, e, ?_, ?_⟩
    · rw [hx, exec_eq, clinit_fresh_some env fuel ns h]
      cases a <;> rfl
    · cases a <;> rfl
  · refine ⟨_, ⟨true, true, some (ns.withLocalPart "Module"), some (ns.withLocalPart "mapsTo"),
      some (ns.withLocalPart "mapping"), some (ns.withLocalPart "definition"), 1⟩, e, ?_, ?_⟩
    · rw [hx, exec_closed env (fuel + 1) _ _ rfl]
      cases a <;> rfl
    · cases a <;> rfl

/-- C3 at the SBOL2 namespace: `hasMapping()` after three other calls. -/
theorem C3_lookup_total_deterministic_witness :
    Env.calling_back.sbol2 = some ⟨"http://sbols.org/v2#"⟩ ∧
    ∃ s s1, afterCalls Env.calling_back 2 [.get .hasDefinition, .clinit, .get .Module_]
        Statics.fresh = some s ∧
      accessor Env.calling_back 2 .hasMapping s =
        some ⟨s1, .ok (some (NamespaceBinding.withLocalPart ⟨"http://sbols.org/v2#"⟩ "mapping"))⟩ ∧
      Accessor.field .hasMapping s1 =
        some (NamespaceBinding.withLocalPart ⟨"http://sbols.org/v2#"⟩ "mapping") :=
  ⟨rfl, C3_lookup_total_deterministic Env.calling_back ⟨"http://sbols.org/v2#"⟩ 0 rfl
    [.get .hasDefinition, .clinit, .get .Module_] .hasMapping⟩

/-- C4: after a successful first `clinit()` the four terms are pairwise distinct:
they share one namespace URI and carry the pairwise different local names
"Module", "mapsTo", "mapping" and "definition". -/
theorem C4_terms_pairwise_distinct (env : Env) (fuel : Nat) (s1 : Statics)
    (h : clinit env (fuel + 2) Statics.fresh = some ⟨s1, .ok ()⟩) :
    (s1.Module__ ≠ s1.hasMapsTo_ ∧ s1.Module__ ≠ s1.hasMapping_ ∧
      s1.Module__ ≠ s1.hasDefinition_ ∧ s1.hasMapsTo_ ≠ s1.hasMapping_ ∧
      s1.hasMapsTo_ ≠ s1.hasDefinition_ ∧ s1.hasMapping_ ≠ s1.hasDefinition_) ∧
    ∃ uri, s1.Module__ = some ⟨uri, "Module"⟩ ∧ s1.hasMapsTo_ = some ⟨uri, "mapsTo"⟩ ∧
      s1.hasMapping_ = some ⟨uri, "mapping"⟩ ∧ s1.hasDefinition_ = some ⟨uri, "definition"⟩ := by
  rcases clinit_cases env fuel Statics.fresh with ⟨hc, _⟩ | ⟨_, _, ns, _, e⟩ | ⟨_, _, _, e⟩
  · simp [Statics.fresh] at hc
  · rw [e] at h
    simp only [Option.some.injEq, Outcome.mk.injEq] at h
    rw [← h.1]
    refine ⟨?_, ns.namespaceURI, rfl, rfl, rfl, rfl⟩
    simp only [NamespaceBinding.withLocalPart, ne_eq, Option.some.injEq, QName.mk.injEq,
      true_and]
    decide
  · rw [e] at h
    simp at h

/-- C4 at the SBOL2 namespace. -/
theorem C4_terms_pairwise_distinct_witness :
    clinit Env.calling_back 2 Statics.fresh =
      some ⟨⟨true, true, some ⟨"http://sbols.org/v2#", "Module"⟩,
              some ⟨"http://sbols.org/v2#", "mapsTo"⟩, some ⟨"http://sbols.org/v2#", "mapping"⟩,
              some ⟨"http://sbols.org/v2#", "definition"⟩, 1⟩, .ok ()⟩ ∧
    (((some ⟨"http://sbols.org/v2#", "Module"⟩ : Option QName)
          ≠ some ⟨"http://sbols.org/v2#", "mapsTo"⟩ ∧
      (some ⟨"http://sbols.org/v2#", "Module"⟩ : Option QName)
          ≠ some ⟨"http://sbols.org/v2#", "mapping"⟩ ∧
      (some ⟨"http://sbols.org/v2#", "Module"⟩ : Option QName)
          ≠ some ⟨"http://sbols.org/v2#", "definition"⟩ ∧
      (some ⟨"http://sbols.org/v2#", "mapsTo"⟩ : Option QName)
          ≠ some ⟨"http://sbols.org/v2#", "mapping"⟩ ∧
      (some ⟨"http://sbols.org/v2#", "mapsTo"⟩ : Option QName)
          ≠ some ⟨"http://sbols.org/v2#", "definition"⟩ ∧
      (some ⟨"http://sbols.org/v2#", "mapping"⟩ : Option QName)
          ≠ some ⟨"http://sbols.org/v2#", "definition"⟩) ∧
    ∃ uri, (some ⟨"http://sbols.org/v2#", "Module"⟩ : Option QName) = some ⟨uri, "Module"⟩ ∧
      (some ⟨"http://sbols.org/v2#", "mapsTo"⟩ : Option QName) = some ⟨uri, "mapsTo"⟩ ∧
      (some ⟨"http://sbols.org/v2#", "mapping"⟩ : Option QName) = some ⟨uri, "mapping"⟩ ∧
      (some ⟨"http://sbols.org/v2#", "definition"⟩ : Option QName)
          = some ⟨uri, "definition"⟩) :=
  ⟨rfl, C4_terms_pairwise_distinct Env.calling_back 0
    ⟨true, true, some ⟨"http://sbols.org/v2#", "Module"⟩,
      some ⟨"http://sbols.org/v2#", "mapsTo"⟩, some ⟨"http://sbols.org/v2#", "mapping"⟩,
      some ⟨"http://sbols.org/v2#", "definition"⟩, 1⟩ rfl⟩

/-- C8: `npc` returns a non-null pointer as it is and raises
NullPointerException on null; the first `clinit()` on fresh storage raises
NullPointerException exactly when `Sbol2Terms::sbol2()` is null, it raises
nothing else, and whenever it raises all four term fields are still null. -/
theorem C8_initialisation_fails_atomically (env : Env) (fuel : Nat) :
    (∀ (T : Type) (x : T), npc (some x) = .ok x) ∧
    (∀ T : Type, npc (none : Option T) = .error .NullPointerException) ∧
    ((∃ s, clinit env (fuel + 2) Statics.fresh = some ⟨s, .error .NullPointerException⟩)
        ↔ env.sbol2 = none) ∧
    (∀ s e, clinit env (fuel + 2) Statics.fresh = some ⟨s, .error e⟩ →
        e = .NullPointerException ∧ s.Module__ = none ∧ s.hasMapsTo_ = none ∧
          s.hasMapping_ = none ∧ s.hasDefinition_ = none) := by
  refine ⟨fun _ _ => rfl, fun _ => rfl, ⟨?_, ?_⟩, ?_⟩
  · rintro ⟨s, hs⟩
    cases h : env.sbol2 with
    | none => rfl
    | some ns =>
      rw [clinit_fresh_some env fuel ns h] at hs
      simp at hs
  · intro h
    exact ⟨_, clinit_fresh_none env fuel h⟩
  · intro s e hs
    cases h : env.sbol2 with
    | none =>
      rw [clinit_fresh_none env fuel h] at hs
      simp only [Option.some.injEq, Outcome.mk.injEq] at hs
      cases e
      rw [← hs.1]
      exact ⟨rfl, rfl, rfl, rfl, rfl⟩
    | some ns =>
      rw [clinit_fresh_some env fuel ns h] at hs
      simp at hs

/-- C8 where `sbol2()` is null: the storage the failing `clinit()` leaves. -/
theorem C8_initialisation_fails_atomically_witness :
    clinit Env.without_namespace 2 Statics.fresh =
      some ⟨⟨true, false, none, none, none, none, 1⟩, .error .NullPointerException⟩ ∧
    (Throwable.NullPointerException = .NullPointerException ∧
      (none : Option QName) = none ∧ (none : Option QName) = none ∧
      (none : Option QName) = none ∧ (none : Option QName) = none) :=
  ⟨rfl, (C8_initialisation_fails_atomically Env.without_namespace 0).2.2.2
    ⟨true, false, none, none, none, none, 1⟩ .NullPointerException rfl⟩

/-- C9: (a) with `in_cl_init` set, `clinit()` returns at once and changes nothing,
in every environment; the first `clinit()` always returns (two levels of fuel
suffice whatever `sbol2()` calls back), leaves the flag set, and has entered
the initializer once, calls back included; (b) when `sbol2()` is null the first
`clinit()` raises NullPointerException, and from the storage it leaves any
later sequence of calls changes nothing, `clinit()` is a no-op and every
accessor returns null without raising, in every later environment. -/
theorem C9_guard_never_cleared (env env' : Env) (fuel fuel' : Nat) :
    (∀ s, s.in_cl_init = true → clinit env' (fuel' + 1) s = some ⟨s, .ok ()⟩) ∧
    (∃ s r, clinit env (fuel + 2) Statics.fresh = some ⟨s, r⟩ ∧ s.in_cl_init = true ∧
        s.clinit__entered = 1) ∧
    (∀ s, ∃ o, clinit env (fuel + 2) s = some o) ∧
    (env.sbol2 = none →
      ∃ s, clinit env (fuel + 2) Statics.fresh = some ⟨s, .error .NullPointerException⟩ ∧
        clinit env' (fuel' + 1) s = some ⟨s, .ok ()⟩ ∧
        (∀ a, accessor env' (fuel' + 1) a s = some ⟨s, .ok none⟩) ∧
        (∀ cs, afterCalls env' (fuel' + 1) cs s = some s)) := by
  refine ⟨fun s h => clinit_closed env' fuel' s h, ?_, clinit_terminates env fuel, ?_⟩
  · cases h : env.sbol2 with
    | none => exact ⟨_, _, clinit_fresh_none env fuel h, rfl, rfl⟩
    | some ns => exact ⟨_, _, clinit_fresh_some env fuel ns h, rfl, rfl⟩
  · intro h
    refine ⟨_, clinit_fresh_none env fuel h, clinit_closed env' fuel' _ rfl, ?_,
      fun cs => afterCalls_closed env' fuel' cs _ rfl⟩
    intro a
    have := exec_closed env' fuel' (.get a) ⟨true, false, none, none, none, none, 1⟩ rfl
    rw [show accessor env' (fuel' + 1) a = exec env' (fuel' + 1) (.get a) from rfl, this]
    cases a <;> rfl

/-- C9 where `sbol2()` is null at first and bound later: the later calls still
find the flag set. -/
theorem C9_guard_never_cleared_witness :
    Env.without_namespace.sbol2 = none ∧
    ∃ s, clinit Env.without_namespace 2 Statics.fresh =
          some ⟨s, .error .NullPointerException⟩ ∧
        clinit Env.calling_back 1 s = some ⟨s, .ok ()⟩ ∧
        (∀ a, accessor Env.calling_back 1 a s = some ⟨s, .ok none⟩) ∧
        (∀ cs, afterCalls Env.calling_back 1 cs s = some s) :=
  ⟨rfl, (C9_guard_never_cleared Env.without_namespace Env.calling_back 0 0).2.2.2 rfl⟩

/-- C10: the literal handed to `::class_` is "org.sbolstandard.core2.Sbol2Terms.Module"
and the length 40 handed with it is the number of its UTF-16 code units, so the
extern reads the whole literal and nothing after it; `getClass0()` is `class_()`;
and a second `class_()` returns the object of the first without calling the
extern again or changing the storage. -/
theorem C10_class_name_and_cache {K R : Type} (ext : List Nat → Int → R → Option K × R)
    (st : ClassStatics K R) :
    (st.c_initialised = false →
      class_ ext st =
        ((ext (utf16 "org.sbolstandard.core2.Sbol2Terms.Module") 40 st.runtime).1,
          { c_initialised := true,
            c := (ext (utf16 "org.sbolstandard.core2.Sbol2Terms.Module") 40 st.runtime).1,
            runtime := (ext (utf16 "org.sbolstandard.core2.Sbol2Terms.Module") 40 st.runtime).2 })) ∧
    ((utf16 "org.sbolstandard.core2.Sbol2Terms.Module").length : Int) = 40 ∧
    (utf16 "org.sbolstandard.core2.Sbol2Terms.Module").take 40
      = utf16 "org.sbolstandard.core2.Sbol2Terms.Module" ∧
    getClass0 ext st = class_ ext st ∧
    class_ ext (class_ ext st).2 = ((class_ ext st).1, (class_ ext st).2) ∧
    getClass0 ext (class_ ext st).2 = ((class_ ext st).1, (class_ ext st).2) ∧
    (st.c_initialised = true → class_ ext st = (st.c, st)) := by
  refine ⟨?_, by decide, by decide, rfl, ?_, ?_, ?_⟩
  · intro h
    simp [class_, h]
  · cases h : st.c_initialised <;> simp [class_, h]
  · cases h : st.c_initialised <;> simp [getClass0, class_, h]
  · intro h
    simp [class_, h]

/-- C10 with a runtime that numbers the class objects it hands out: the first
`class_()` gets object 0 and so does the second. -/
theorem C10_class_name_and_cache_witness :
    class_ (fun name n (r : Nat) => (some (name.take n.toNat, r), r + 1))
        { c_initialised := false, c := none, runtime := 0 }
      = (some (utf16 "org.sbolstandard.core2.Sbol2Terms.Module", 0),
          { c_initialised := true,
            c := some (utf16 "org.sbolstandard.core2.Sbol2Terms.Module", 0), runtime := 1 }) ∧
    class_ (fun name n (r : Nat) => (some (name.take n.toNat, r), r + 1))
        { c_initialised := true,
          c := some (utf16 "org.sbolstandard.core2.Sbol2Terms.Module", 0), runtime := 1 }
      = (some (utf16 "org.sbolstandard.core2.Sbol2Terms.Module", 0),
          { c_initialised := true,
            c := some (utf16 "org.sbolstandard.core2.Sbol2Terms.Module", 0), runtime := 1 }) :=
  ⟨(C10_class_name_and_cache
      (fun name n (r : Nat) => (some (name.take n.toNat, r), r + 1))
      { c_initialised := false, c := none, runtime := 0 }).1 rfl,
   (C10_class_name_and_cache
      (fun name n (r : Nat) => (some (name.take n.toNat, r), r + 1))
      { c_initialised := true,
        c := some (utf16 "org.sbolstandard.core2.Sbol2Terms.Module", 0), runtime := 1 }).2.2.2.2.2.2 rfl⟩

end Sbol2Terms_Module

/-! # Properties of the entity graph -/

namespace EntityGraph

/-- In a document with unique identifiers, looking up a member's identifier
finds that member. -/
theorem lookup_of_mem (d : Document) (m : Entity) (hd : (ids d).Nodup) (hm : m ∈ d) :
    lookup d m.id = some m := by
  induction d with
  | nil => simp at hm
  | cons a l ih =>
    simp only [ids, List.map_cons, List.nodup_cons, List.mem_map, not_exists, not_and] at hd
    rcases List.mem_cons.1 hm with rfl | hm1
    · simp [lookup]
    · have hne : a.id ≠ m.id := fun h => hd.1 m hm1 h.symm
      have := ih hd.2 hm1
      simp only [lookup] at this ⊢
      rw [List.find?_cons_of_neg _ (by simpa using hne)]
      exact this

/-- Unique identifiers: two members with the same identifier are one entity. -/
theorem eq_of_id_eq (d : Document) (x m : Entity) (hd : (ids d).Nodup) (hx : x ∈ d)
    (hm : m ∈ d) (h : x.id = m.id) : x = m := by
  have h1 := lookup_of_mem d x hd hx
  have h2 := lookup_of_mem d m hd hm
  rw [h, h2] at h1
  exact (Option.some.inj h1).symm

/-- A reported chain of owners is a real one. -/
theorem ownedBy_sound (d : Document) (target : Identifier) (fuel : Nat) (e : Entity)
    (h : ownedBy d target fuel e = true) : ∃ k, OwnedBy d target k e := by
  induction fuel generalizing e with
  | zero => simp [ownedBy] at h
  | succ n ih =>
    unfold ownedBy at h
    cases ho : e.owner with
    | none => simp [ho] at h
    | some p =>
      simp only [ho] at h
      by_cases hp : p = target
      · exact ⟨1, .direct e (by rw [ho, hp])⟩
      · simp only [hp, if_false] at h
        cases hl : lookup d p with
        | none => simp [hl] at h
        | some parent =>
          simp only [hl] at h
          obtain ⟨k, hk⟩ := ih parent h
          exact ⟨k + 1, .step e parent p k ho hl hk⟩

/-- A chain of `k` owner links is found with any fuel of at least `k`. -/
theorem ownedBy_complete (d : Document) (target : Identifier) (k : Nat) (e : Entity)
    (h : OwnedBy d target k e) : ∀ fuel, k ≤ fuel → ownedBy d target fuel e = true := by
  induction h with
  | direct e ho =>
    intro fuel hf
    obtain ⟨n, rfl⟩ : ∃ n, fuel = n + 1 := ⟨fuel - 1, by omega⟩
    simp [ownedBy, ho]
  | step e parent p k ho hl _ ih =>
    intro fuel hf
    obtain ⟨n, rfl⟩ : ∃ n, fuel = n + 1 := ⟨fuel - 1, by omega⟩
    unfold ownedBy
    simp only [ho]
    by_cases hp : p = target
    · simp [hp]
    · simp only [hp, if_false, hl]
      exact ih n (by omega)

/-- A chain of `k` owner links lists `k` entities. -/
theorem chain_of_ownedBy (d : Document) (target : Identifier) (k : Nat) (e : Entity)
    (h : OwnedBy d target k e) : ∃ l, Chain d target l e ∧ l.length = k := by
  induction h with
  | direct e ho => exact ⟨[e], .direct e ho, rfl⟩
  | step e parent p k ho hl _ ih =>
    obtain ⟨l, hc, hlen⟩ := ih
    exact ⟨e :: l, .step e parent p l ho hl hc, by simp [hlen]⟩

/-- The entities listed by a chain are its owner links. -/
theorem ownedBy_of_chain (d : Document) (target : Identifier) (l : List Entity) (e : Entity)
    (h : Chain d target l e) : OwnedBy d target l.length e := by
  induction h with
  | direct e ho => exact .direct e ho
  | step e parent p l ho hl _ ih => exact .step e parent p l.length ho hl ih

/-- A chain can be entered at any entity it lists: the rest of the list is a
chain from there. -/
theorem chain_suffix (d : Document) (target : Identifier) (l : List Entity) (e x : Entity)
    (h : Chain d target l e) (hx : x ∈ l) : ∃ l1, Chain d target l1 x ∧ l1 <:+ l := by
  induction h with
  | direct e ho =>
    rw [List.mem_singleton] at hx
    subst hx
    exact ⟨[x], .direct x ho, List.suffix_refl _⟩
  | step e parent p l ho hl hc ih =>
    rcases List.mem_cons.1 hx with rfl | hx1
    · exact ⟨x :: l, .step x parent p l ho hl hc, List.suffix_refl _⟩
    · obtain ⟨l1, h1, hs⟩ := ih hx1
      exact ⟨l1, h1, hs.trans (List.suffix_cons _ _)⟩

/-- Loops can be cut out of a chain: there is a chain from the same entity that
lists no entity twice and only entities of the given one. -/
theorem chain_nodup (d : Document) (target : Identifier) (l : List Entity) (e : Entity)
    (h : Chain d target l e) : ∃ l1, Chain d target l1 e ∧ l1.Nodup ∧ l1 ⊆ l := by
  induction h with
  | direct e ho => exact ⟨[e], .direct e ho, List.nodup_singleton e, List.Subset.refl _⟩
  | step e parent p l ho hl _ ih =>
    obtain ⟨l1, h1, hn, hsub⟩ := ih
    by_cases he : e ∈ l1
    · obtain ⟨l2, h2, hs⟩ := chain_suffix d target l1 parent e h1 he
      exact ⟨l2, h2, hn.sublist hs.sublist,
        fun x hx => List.mem_cons_of_mem _ (hsub (hs.subset hx))⟩
    · exact ⟨e :: l1, .step e parent p l1 ho hl h1, List.nodup_cons.2 ⟨he, hn⟩,
        List.cons_subset_cons _ hsub⟩

/-- A chain that starts inside the document stays inside it. -/
theorem chain_subset (d : Document) (target : Identifier) (l : List Entity) (e : Entity)
    (h : Chain d target l e) (he : e ∈ d) : l ⊆ d := by
  induction h with
  | direct e _ => simpa using he
  | step e parent p l _ hl _ ih =>
    have hp : parent ∈ d := List.mem_of_find?_eq_some hl
    exact List.cons_subset.2 ⟨he, ih hp⟩

/-- The fuel `removeEntity` gives to `ownedBy`, the size of the document, is
enough: every chain of owners from a member to the target is found, however
long the chain given. -/
theorem ownedBy_length (d : Document) (target : Identifier) (k : Nat) (e : Entity)
    (he : e ∈ d) (h : OwnedBy d target k e) : ownedBy d target d.length e = true := by
  obtain ⟨l, hc, _⟩ := chain_of_ownedBy d target k e h
  obtain ⟨l1, h1, hn, _⟩ := chain_nodup d target l e hc
  have hsub : l1 ⊆ d := chain_subset d target l1 e h1 he
  have hlen : l1.length ≤ d.length := (hn.subperm hsub).length_le
  exact ownedBy_complete d target l1.length e (ownedBy_of_chain d target l1 e h1) d.length hlen

/-- What `removeEntity` keeps: the members other than the removed entity that
no chain of owners ties to it. -/
theorem mem_removeEntity (d d1 : Document) (id : Identifier) (h : removeEntity d id = .ok d1)
    (e : Entity) :
    e ∈ d1 ↔ e ∈ d ∧ e.id ≠ id ∧ ownedBy d id d.length e = false := by
  unfold removeEntity at h
  split at h
  · simp only [Except.ok.injEq] at h
    subst h
    simp [List.mem_filter]
  · simp at h

/-- Creation keeps unique identifiers: `createEntity` keeps the identifiers of a document unique. -/
theorem createEntity_nodup (d d1 : Document) (kind : Kind) (id : Identifier)
    (owner : Option Identifier) (hd : (ids d).Nodup)
    (h : createEntity d kind id owner = .ok d1) : (ids d1).Nodup := by
  unfold createEntity at h
  split at h
  · simp at h
  · rename_i hid
    simp only [Except.ok.injEq] at h
    subst h
    simp only [ids, List.map_append, List.map_cons, List.map_nil]
    refine List.Nodup.append hd (List.nodup_singleton _) ?_
    intro x hx hx1
    rw [List.mem_singleton] at hx1
    subst hx1
    exact hid hx

/-- Removal keeps unique identifiers: `removeEntity` keeps the identifiers of a document unique. -/
theorem removeEntity_nodup (d d1 : Document) (id : Identifier) (hd : (ids d).Nodup)
    (h : removeEntity d id = .ok d1) : (ids d1).Nodup := by
  unfold removeEntity at h
  split at h
  · simp only [Except.ok.injEq] at h
    subst h
    exact List.Nodup.sublist (List.Sublist.map _ (List.filter_sublist _)) hd
  · simp at h

/-- C6: `createEntity(kind, id)` fails with DuplicateIdentifierError exactly when
`id` is already in the document, and it fails in no other way; after a
successful `createEntity(kind, id)` a second `createEntity` with the same
identifier fails with DuplicateIdentifierError, whatever its kind and owner. -/
theorem C6_duplicate_rejection (d : Document) (kind : Kind) (id : Identifier)
    (owner : Option Identifier) :
    (createEntity d kind id owner = .error .DuplicateIdentifierError ↔ id ∈ ids d) ∧
    (∀ err, createEntity d kind id owner = .error err → err = .DuplicateIdentifierError) ∧
    (∀ d1 kind1 owner1, createEntity d kind id owner = .ok d1 →
      createEntity d1 kind1 id owner1 = .error .DuplicateIdentifierError) := by
  refine ⟨?_, ?_, ?_⟩
  · unfold createEntity
    by_cases h : id ∈ ids d <;> simp [h]
  · intro err herr
    unfold createEntity at herr
    by_cases h : id ∈ ids d
    · simp only [h, if_true, Except.error.injEq] at herr
      exact herr.symm
    · simp [h] at herr
  · intro d1 kind1 owner1 h1
    unfold createEntity at h1
    by_cases h : id ∈ ids d
    · simp [h] at h1
    · simp only [h, if_false, Except.ok.injEq] at h1
      subst h1
      simp [createEntity, ids]

/-- C6 on a concrete document: creating "md1" twice from the empty document. -/
theorem C6_duplicate_rejection_witness :
    createEntity [] .ModuleDefinition ⟨"md1"⟩ none =
      .ok [{ id := ⟨"md1"⟩, kind := .ModuleDefinition, owner := none, properties := [],
             references := [] }] ∧
    createEntity [{ id := ⟨"md1"⟩, kind := .ModuleDefinition, owner := none, properties := [],
                    references := [] }] .ModuleDefinition ⟨"md1"⟩ none =
      .error .DuplicateIdentifierError :=
  ⟨rfl, (C6_duplicate_rejection [] .ModuleDefinition ⟨"md1"⟩ none).2.2 _ .ModuleDefinition none rfl⟩

/-- C7: when `removeEntity` succeeds on a document with unique identifiers, the
removed entity is gone, so is every entity it owns and every entity those own
(and so on along any chain of owners); every other entity that no chain of
owners ties to the removed one (one that is only referred to, or that nothing
owns) is still in the document, as it was, and what remains is the old
document minus the removed entities, in the old order. -/
theorem C7_cascade_delete (d d1 : Document) (id : Identifier) (hd : (ids d).Nodup)
    (h : removeEntity d id = .ok d1) :
    id ∉ ids d1 ∧
    (∀ m ∈ d, m.owner = some id → m.id ∉ ids d1) ∧
    (∀ m ∈ d, m.owner = some id → ∀ c ∈ d, c.owner = some m.id → c.id ∉ ids d1) ∧
    (∀ e ∈ d, ∀ k, OwnedBy d id k e → e.id ∉ ids d1) ∧
    (∀ e ∈ d, e.id ≠ id → (∀ k, ¬ OwnedBy d id k e) → e ∈ d1) ∧
    (∀ e ∈ d, e.id ≠ id → e.owner = none → e ∈ d1) ∧
    d1.Sublist d := by
  have hmem := mem_removeEntity d d1 id h
  have gone : ∀ e ∈ d, ∀ k, OwnedBy d id k e → e.id ∉ ids d1 := by
    intro m hm k hk hin
    simp only [ids, List.mem_map] at hin
    obtain ⟨x, hx, hxid⟩ := hin
    have hx1 := (hmem x).1 hx
    have : x = m := eq_of_id_eq d x m hd hx1.1 hm hxid
    rw [this, ownedBy_length d id k m hm hk] at hx1
    simp at hx1
  have kept : ∀ e ∈ d, e.id ≠ id → (∀ k, ¬ OwnedBy d id k e) → e ∈ d1 := by
    intro e he hne hk
    refine (hmem e).2 ⟨he, hne, ?_⟩
    cases hb : ownedBy d id d.length e with
    | false => rfl
    | true =>
      obtain ⟨k, hk1⟩ := ownedBy_sound d id d.length e hb
      exact absurd hk1 (hk k)
  refine ⟨?_, ?_, ?_, gone, kept, ?_, ?_⟩
  · intro hin
    simp only [ids, List.mem_map] at hin
    obtain ⟨x, hx, hxid⟩ := hin
    exact ((hmem x).1 hx).2.1 hxid
  · intro m hm ho
    exact gone m hm 1 (.direct m ho)
  · intro m hm ho c hc hco
    exact gone c hc 2 (.step c m m.id 1 hco (lookup_of_mem d m hd hm) (.direct m ho))
  · intro e he hne ho
    refine kept e he hne ?_
    intro k hk
    cases hk with
    | direct _ h1 => rw [ho] at h1; simp at h1
    | step _ _ _ _ h1 _ _ => rw [ho] at h1; simp at h1
  · unfold removeEntity at h
    split at h
    · simp only [Except.ok.injEq] at h
      subst h
      exact List.filter_sublist _
    · simp at h

/-- C7 on the design document: removing "md1" takes its two Modules and the
MapsTo with it; the ComponentDefinition "cd1", which the Modules only refer to,
stays. -/
theorem C7_cascade_delete_witness :
    (ids Document.design).Nodup ∧
    removeEntity Document.design ⟨"md1"⟩ = .ok [Entity.cd1] ∧
    ((⟨"md1"⟩ : Identifier) ∉ ids [Entity.cd1] ∧
    (∀ m ∈ Document.design, m.owner = some ⟨"md1"⟩ → m.id ∉ ids [Entity.cd1]) ∧
    (∀ m ∈ Document.design, m.owner = some ⟨"md1"⟩ →
      ∀ c ∈ Document.design, c.owner = some m.id → c.id ∉ ids [Entity.cd1]) ∧
    (∀ e ∈ Document.design, ∀ k, OwnedBy Document.design ⟨"md1"⟩ k e →
      e.id ∉ ids [Entity.cd1]) ∧
    (∀ e ∈ Document.design, e.id ≠ ⟨"md1"⟩ →
      (∀ k, ¬ OwnedBy Document.design ⟨"md1"⟩ k e) → e ∈ [Entity.cd1]) ∧
    (∀ e ∈ Document.design, e.id ≠ ⟨"md1"⟩ → e.owner = none → e ∈ [Entity.cd1]) ∧
    List.Sublist [Entity.cd1] Document.design) :=
  ⟨by decide, rfl, C7_cascade_delete Document.design _ ⟨"md1"⟩ (by decide) rfl⟩

end EntityGraph
